import Mathlib

/-!
Shallow embedding of `sanic_ext/extensions/health/monitor.py`: the
heartbeat / staleness-detection watchdog.  Timestamps are rationals
(seconds); Python exceptions are modelled as an `Option PyError`
returned next to the mutated state (a raise does not roll back prior
field mutations), and the monitor loop body returns `Except PyError`
so that an uncaught exception aborting the loop is visible.
-/

/-- The class-level configuration of `HealthMonitor`
(`MAX_MISSES`, `MISSED_THRESHHOLD`; `REPORT_INTERVAL` is used only by
the sender's cadence, not the state machine). Defaults 3 / 10. -/
structure Config where
  maxMisses : ℕ
  missedThreshhold : ℕ
deriving DecidableEq, Repr

/-- Default configuration: `MAX_MISSES = 3`, `MISSED_THRESHHOLD = 10`. -/
def Config.default : Config := ⟨3, 10⟩

/-- Exceptions that can cross the monitor-loop boundary:
`Stale(ValueError)` raised by `HealthState.missed`, and the `KeyError`
from `health_state[name]` on an unknown name. -/
inductive PyError where
  | staleError : PyError
  | keyError : String → PyError
deriving DecidableEq, Repr

/-- dataclass `HealthState`: `name`, `last: Optional[datetime] = None`,
`misses: int = 0`. -/
structure HealthState where
  name : String
  last : Option ℚ := none
  misses : ℕ := 0
deriving DecidableEq, Repr

/-- `HealthState.report`: `self.last = datetime.fromtimestamp(timestamp);
self.misses = 0` (logging omitted). -/
def HealthState.report (s : HealthState) (timestamp : ℚ) : HealthState :=
  { s with last := some timestamp, misses := 0 }

/-- `HealthState.missed`: `self.misses += 1`; then
`if self.misses >= MAX_MISSES: raise Stale`.  The increment has already
happened when the exception is raised, so the mutated state is returned
alongside the raised exception. -/
def HealthState.missedE (cfg : Config) (s : HealthState) : HealthState × Option PyError :=
  let s1 : HealthState := { s with misses := s.misses + 1 }
  (s1, if s1.misses ≥ cfg.maxMisses then some PyError.staleError else none)

/-- `HealthState.check`: `if not self.last: return`; otherwise
`threshhold = timedelta(seconds=MISSED_THRESHHOLD * (self.misses + 1))`
and `if self.last < (datetime.now() - threshhold): self.missed()`. -/
def HealthState.checkE (cfg : Config) (now : ℚ) (s : HealthState) :
    HealthState × Option PyError :=
  match s.last with
  | none => (s, none)
  | some last =>
    let threshhold : ℚ := (cfg.missedThreshhold : ℚ) * ((s.misses : ℚ) + 1)
    if last < now - threshhold then s.missedE cfg else (s, none)

/-- `HealthState.reset`: `self.misses = 0; self.last = datetime.now()`. -/
def HealthState.reset (s : HealthState) (now : ℚ) : HealthState :=
  { s with misses := 0, last := some now }

/-- Externally observable actions of one loop iteration, in program
order: the state reset and the `monitor_publisher.send(state.name)`
call. -/
inductive Event where
  | resetEv : String → Event
  | publish : String → Event
deriving DecidableEq, Repr

/-- The per-state body of the monitor loop:
`try: state.check() except Stale: state.reset(); publisher.send(state.name)`.
Only `Stale` is caught; any other exception would propagate. -/
def handleState (cfg : Config) (now : ℚ) (s : HealthState) :
    (HealthState × List Event) × Option PyError :=
  match s.checkE cfg now with
  | (s1, some PyError.staleError) =>
    let s2 := s1.reset now
    ((s2, [Event.resetEv s1.name, Event.publish s2.name]), none)
  | (s1, some e) => ((s1, []), some e)
  | (s1, none) => ((s1, []), none)

/-- The dict `health_state` of the monitor loop, as an association list
from process name to `HealthState` (insertion order preserved, as for a
Python dict). -/
abbrev StateMap := List (String × HealthState)

/-- The dequeue-and-report phase of one loop iteration: on a message,
`health_state[name].report(timestamp)` — the subscript raises `KeyError`
for an unknown name (there is no guard in the code); on `Empty`
(no message), a no-op. -/
def reportPhase (msg : Option (String × ℚ)) (states : StateMap) :
    Except PyError StateMap :=
  match msg with
  | none => Except.ok states
  | some (name, timestamp) =>
    if states.any (fun p => p.1 == name) then
      Except.ok (states.map (fun p =>
        if p.1 = name then (p.1, p.2.report timestamp) else p))
    else
      Except.error (PyError.keyError name)

/-- The `for state in health_state.values()` phase: each state goes
through `handleState`; an uncaught exception aborts the loop (and the
monitor process, whose local state is then lost). -/
def checkStates (cfg : Config) (now : ℚ) : StateMap → Except PyError (StateMap × List Event)
  | [] => Except.ok ([], [])
  | (n, s) :: rest =>
    match handleState cfg now s with
    | ((s1, ev), none) =>
      match checkStates cfg now rest with
      | Except.ok (rest1, evs) => Except.ok ((n, s1) :: rest1, ev ++ evs)
      | Except.error e => Except.error e
    | (_, some e) => Except.error e

/-- One iteration of `HealthMonitor.__call__`'s `while self.run` loop:
dequeue (`msg = none` models the `Empty` timeout), report, then check
every tracked state. -/
def monitorStep (cfg : Config) (msg : Option (String × ℚ)) (now : ℚ)
    (states : StateMap) : Except PyError (StateMap × List Event) :=
  match reportPhase msg states with
  | Except.ok s1 => checkStates cfg now s1
  | Except.error e => Except.error e

/-- The initial dict built by `HealthMonitor.__call__`:
`{name: HealthState(last=now, name=name) for name in process_names}`. -/
def initStates (processNames : List String) (now : ℚ) : StateMap :=
  processNames.map (fun n => (n, { name := n, last := some now }))

/-- The shared heartbeat channel: `sync_manager.Queue(maxsize=...)`.
`capacity = 0` means unbounded, as for a Python `queue.Queue`. -/
structure Channel where
  capacity : ℕ
  items : List (String × ℚ)
deriving DecidableEq, Repr

/-- `queue.put_nowait(item)`: raises `Full` (reported as `false`, with
the channel unchanged) exactly when `0 < maxsize ≤ qsize()`; otherwise
appends the item. Never blocks. -/
def Channel.putNowait (c : Channel) (item : String × ℚ) : Channel × Bool :=
  if 0 < c.capacity ∧ c.capacity ≤ c.items.length then (c, false)
  else ({ c with items := c.items ++ [item] }, true)

/-- `send_healthy(name, queue)`: build `(name, now.timestamp())`,
`queue.put_nowait(health)`, and swallow `Full` (`except Full: ...`). -/
def sendHealthy (name : String) (now : ℚ) (queue : Channel) : Channel :=
  let health := (name, now)
  (queue.putNowait health).1

/-- `HealthMonitor.prepare`: `sync_manager.Queue(maxsize=app.state.workers * 2)`,
a fresh empty channel. -/
def HealthMonitor.prepare (workers : ℕ) : Channel :=
  { capacity := workers * 2, items := [] }

/-- The poll timeout of `health_queue.get(timeout=0.05)` in the monitor
loop, in seconds. -/
def HealthMonitor.getTimeout : ℚ := 5 / 100

/-! ### Characterization lemmas for the embedded operations -/

/-- `checkE` on a state with a recorded heartbeat, written as nested
if-then-else. Definitional. -/
lemma checkE_eq (cfg : Config) (now : ℚ) (name : String) (last : ℚ) (m : ℕ) :
    HealthState.checkE cfg now ⟨name, some last, m⟩ =
      if last < now - (cfg.missedThreshhold : ℚ) * ((m : ℚ) + 1) then
        (⟨name, some last, m + 1⟩,
          if m + 1 ≥ cfg.maxMisses then some PyError.staleError else none)
      else (⟨name, some last, m⟩, none) := rfl

/-- `missed` never touches `last`. -/
lemma missedE_last (cfg : Config) (s : HealthState) :
    ((s.missedE cfg).1).last = s.last := rfl

/-- `missed` never touches `name`. -/
lemma missedE_name (cfg : Config) (s : HealthState) :
    ((s.missedE cfg).1).name = s.name := rfl

/-- `check` never touches `last`. -/
lemma checkE_last (cfg : Config) (now : ℚ) (s : HealthState) :
    ((s.checkE cfg now).1).last = s.last := by
  obtain ⟨nm, lastF, m⟩ := s
  cases lastF with
  | none => rfl
  | some l => rw [checkE_eq]; split <;> rfl

/-- `check` never touches `name`. -/
lemma checkE_name (cfg : Config) (now : ℚ) (s : HealthState) :
    ((s.checkE cfg now).1).name = s.name := by
  obtain ⟨nm, lastF, m⟩ := s
  cases lastF with
  | none => rfl
  | some l => rw [checkE_eq]; split <;> rfl

/-- The only exception `check` can raise is `Stale`. -/
lemma checkE_snd (cfg : Config) (now : ℚ) (s : HealthState) :
    (s.checkE cfg now).2 = none ∨ (s.checkE cfg now).2 = some PyError.staleError := by
  obtain ⟨nm, lastF, m⟩ := s
  cases lastF with
  | none => exact Or.inl rfl
  | some l =>
    rw [checkE_eq]
    split
    · by_cases h2 : m + 1 ≥ cfg.maxMisses <;> simp [h2]
    · exact Or.inl rfl

/-- The loop body around one state, written as an if-then-else on
whether `check` raised `Stale`: the `except Stale` handler performs
`reset` and then the publish, and nothing escapes. -/
lemma handleState_eq (cfg : Config) (now : ℚ) (s : HealthState) :
    handleState cfg now s =
      if (s.checkE cfg now).2 = some PyError.staleError then
        ((((s.checkE cfg now).1).reset now,
          [Event.resetEv ((s.checkE cfg now).1).name,
           Event.publish ((s.checkE cfg now).1).name]), none)
      else (((s.checkE cfg now).1, []), none) := by
  unfold handleState
  have hc := checkE_snd cfg now s
  rcases h : s.checkE cfg now with ⟨s1, e⟩
  rw [h] at hc
  simp only at hc
  rcases hc with hc | hc <;> subst hc <;> simp [HealthState.reset]

/-- The loop body never lets an exception out. -/
lemma handleState_snd (cfg : Config) (now : ℚ) (s : HealthState) :
    (handleState cfg now s).2 = none := by
  rw [handleState_eq]
  split <;> rfl

/-- The check phase never aborts: the only exception its body can meet
is `Stale`, and the `except Stale` handler consumes it. -/
lemma checkStates_ok (cfg : Config) (now : ℚ) (l : StateMap) :
    ∃ out, checkStates cfg now l = Except.ok out := by
  induction l with
  | nil => exact ⟨([], []), rfl⟩
  | cons p rest ih =>
    obtain ⟨out, hout⟩ := ih
    obtain ⟨n, s⟩ := p
    have h2 := handleState_snd cfg now s
    rcases hh : handleState cfg now s with ⟨⟨s1, ev⟩, e⟩
    rw [hh] at h2
    simp only at h2
    subst h2
    refine ⟨((n, s1) :: out.1, ev ++ out.2), ?_⟩
    simp only [checkStates, hh, hout]

/-- The report phase can only fail with a `KeyError` carrying the
dequeued name. -/
lemma reportPhase_error (msg : Option (String × ℚ)) (states : StateMap)
    (e : PyError) (h : reportPhase msg states = Except.error e) :
    ∃ name ts, msg = some (name, ts) ∧ e = PyError.keyError name := by
  match msg with
  | none => simp [reportPhase] at h
  | some (name, ts) =>
    refine ⟨name, ts, rfl, ?_⟩
    rw [reportPhase] at h
    split at h
    · cases h
    · cases h; rfl

/-- An accepted miss that does not escalate keeps `misses` strictly
below the limit; an escalating one is followed by `reset`. Net effect:
the loop body keeps `misses` below `maxMisses` whenever it was. -/
lemma handleState_misses_lt (cfg : Config) (now : ℚ) (s : HealthState)
    (h1 : 1 ≤ cfg.maxMisses) (hs : s.misses < cfg.maxMisses) :
    (((handleState cfg now s).1.1).misses) < cfg.maxMisses := by
  rw [handleState_eq]
  split
  · simpa [HealthState.reset] using h1
  · rename_i hne
    obtain ⟨nm, lastF, m⟩ := s
    cases lastF with
    | none => simpa using hs
    | some l =>
      rw [checkE_eq] at hne ⊢
      split at hne
      · by_cases h2 : m + 1 ≥ cfg.maxMisses
        · simp [h2] at hne
        · rename_i hcond
          simp only [hcond, if_true]
          simpa using Nat.lt_of_not_le (by simpa using h2)
      · rename_i hcond
        simp only [hcond, if_neg]
        simpa using hs

/-! ### Claim theorems -/

/-- Claim C5: for every HealthState (any name, any last, any miss count,
including a positive one) and every timestamp t, `report(t)` yields
`misses = 0` and `last = t`; `last` is overwritten unconditionally, even
when t is earlier than the current `last` (the timestamp is universally
quantified, with no ordering side condition). -/
theorem report_resets (s : HealthState) (t : ℚ) :
    (s.report t).misses = 0 ∧ (s.report t).last = some t ∧ (s.report t).name = s.name :=
  ⟨rfl, rfl, rfl⟩

/-- Claim C6: on a HealthState whose `last` is unset, `check` is a total
no-op: it raises nothing (second component `none`, so in particular no
`Stale`) and leaves `name`, `last` and `misses` unchanged. -/
theorem check_noop_without_last (cfg : Config) (now : ℚ) (name : String) (m : ℕ) :
    HealthState.checkE cfg now ⟨name, none, m⟩ = (⟨name, none, m⟩, none) := rfl

/-- Claim C8: staleness detection never mutates `last` (or `name`):
`missed` and `check` leave both fields unchanged in every case, whether
or not a miss is recorded or `Stale` is raised. -/
theorem staleness_frame (cfg : Config) (now : ℚ) (s : HealthState) :
    ((s.missedE cfg).1.last = s.last ∧ (s.missedE cfg).1.name = s.name)
    ∧ ((s.checkE cfg now).1.last = s.last ∧ (s.checkE cfg now).1.name = s.name) :=
  ⟨⟨missedE_last cfg s, missedE_name cfg s⟩,
   ⟨checkE_last cfg now s, checkE_name cfg now s⟩⟩

/-- Claim C7: the heartbeat send is a total function (it never blocks
and never raises to its caller): on a full channel
(`0 < capacity ≤ qsize`) the `Full` failure is swallowed and the channel
— the only state the sender touches — is unchanged; otherwise the
`(name, timestamp)` pair is enqueued at the back. -/
theorem sendHealthy_nonblocking (name : String) (now : ℚ) (c : Channel) :
    (0 < c.capacity ∧ c.capacity ≤ c.items.length → sendHealthy name now c = c)
    ∧ (¬(0 < c.capacity ∧ c.capacity ≤ c.items.length) →
        sendHealthy name now c = { c with items := c.items ++ [(name, now)] }) := by
  constructor <;> intro h <;> simp [sendHealthy, Channel.putNowait, h]

/-- Witness for C7: a concrete full channel drops the heartbeat, a
concrete channel with room enqueues it. -/
theorem sendHealthy_nonblocking_witness :
    sendHealthy "w" 1 ⟨2, [("a", 0), ("b", 0)]⟩ = ⟨2, [("a", 0), ("b", 0)]⟩
    ∧ sendHealthy "v" 1 ⟨2, []⟩ = ⟨2, [("v", 1)]⟩ :=
  ⟨(sendHealthy_nonblocking "w" 1 ⟨2, [("a", 0), ("b", 0)]⟩).1 (by decide),
   (sendHealthy_nonblocking "v" 1 ⟨2, []⟩).2 (by decide)⟩

/-- Claim C9: the channel created by `prepare` is bounded with capacity
exactly `2 × workers` and starts empty; the monitor's receive uses the
0.05-second poll timeout; and the send operation is non-blocking — it
returns at once, either enqueueing or reporting `Full`, with no other
outcome. -/
theorem prepare_channel_bounds (workers : ℕ) :
    (HealthMonitor.prepare workers).capacity = 2 * workers
    ∧ (HealthMonitor.prepare workers).items = []
    ∧ HealthMonitor.getTimeout = 5 / 100
    ∧ ∀ (c : Channel) (item : String × ℚ),
        c.putNowait item = ({ c with items := c.items ++ [item] }, true)
        ∨ c.putNowait item = (c, false) := by
  refine ⟨Nat.mul_comm workers 2, rfl, rfl, ?_⟩
  intro c item
  unfold Channel.putNowait
  split
  · exact Or.inr rfl
  · exact Or.inl rfl

/-- Claim C1: with `last` set and miss count m, `check` at time `now`
records a miss (misses becomes m + 1) exactly when
`now - last > missThreshold * (m + 1)` seconds, the threshold being
measured against the unchanged `last` each time, and the `Stale`
escalation is raised exactly when the miss was recorded and the
incremented count reaches `maxMisses`.  With threshold 10, maxMisses 3
and `last = 0`: no miss at t = 10, misses becomes 1 just after (t = 10.1),
no miss at t = 20, misses becomes 2 just after, no miss at t = 30, and
the escalation fires just after (t = 30.1). -/
theorem checkE_growing_threshold (cfg : Config) (name : String) (m : ℕ) (last now : ℚ) :
    ((HealthState.checkE cfg now ⟨name, some last, m⟩).1.misses
        = if now - last > (cfg.missedThreshhold : ℚ) * ((m : ℚ) + 1) then m + 1 else m)
    ∧ ((HealthState.checkE cfg now ⟨name, some last, m⟩).2 = some PyError.staleError
        ↔ now - last > (cfg.missedThreshhold : ℚ) * ((m : ℚ) + 1) ∧ m + 1 ≥ cfg.maxMisses)
    ∧ (HealthState.checkE ⟨3, 10⟩ 10 ⟨"w", some 0, 0⟩ = (⟨"w", some 0, 0⟩, none)
       ∧ HealthState.checkE ⟨3, 10⟩ (101 / 10) ⟨"w", some 0, 0⟩ = (⟨"w", some 0, 1⟩, none)
       ∧ HealthState.checkE ⟨3, 10⟩ 20 ⟨"w", some 0, 1⟩ = (⟨"w", some 0, 1⟩, none)
       ∧ HealthState.checkE ⟨3, 10⟩ (201 / 10) ⟨"w", some 0, 1⟩ = (⟨"w", some 0, 2⟩, none)
       ∧ HealthState.checkE ⟨3, 10⟩ 30 ⟨"w", some 0, 2⟩ = (⟨"w", some 0, 2⟩, none)
       ∧ HealthState.checkE ⟨3, 10⟩ (301 / 10) ⟨"w", some 0, 2⟩
           = (⟨"w", some 0, 3⟩, some PyError.staleError)) := by
  have hiff : (last < now - (cfg.missedThreshhold : ℚ) * ((m : ℚ) + 1))
      ↔ (now - last > (cfg.missedThreshhold : ℚ) * ((m : ℚ) + 1)) := by
    constructor <;> intro h <;> linarith
  refine ⟨?_, ?_, ?_⟩
  · rw [checkE_eq]
    by_cases hc : now - last > (cfg.missedThreshhold : ℚ) * ((m : ℚ) + 1)
    · rw [if_pos (hiff.mpr hc), if_pos hc]
    · rw [if_neg (fun hh => hc (hiff.mp hh)), if_neg hc]
  · rw [checkE_eq]
    by_cases hc : now - last > (cfg.missedThreshhold : ℚ) * ((m : ℚ) + 1)
    · rw [if_pos (hiff.mpr hc)]
      by_cases h2 : m + 1 ≥ cfg.maxMisses
      · simp [h2, hc]
      · simp [h2, hc]
    · rw [if_neg (fun hh => hc (hiff.mp hh))]
      simp [hc]
  · refine ⟨?_, ?_, ?_, ?_, ?_, ?_⟩ <;> rw [checkE_eq] <;> norm_num

/-- Counterexample for C2: dequeuing a heartbeat whose name is not in
the tracked set is not a no-op — the monitor-loop iteration aborts with
a `KeyError` (the dict subscript `health_state[name]` is unguarded), so
an error is raised and the loop does not continue normally. -/
theorem unknown_name_keyerror_cex :
    monitorStep ⟨3, 10⟩ (some ("ghost", 5)) 6 [("w", ⟨"w", some 0, 0⟩)]
      = Except.error (PyError.keyError "ghost") := rfl

/-- Claim C2 (amended): for every heartbeat message whose name is not in
the tracked set, the lookup `health_state[name]` raises a `KeyError`
that propagates out of the monitor loop; no state is reported and the
check phase of that iteration never runs. -/
theorem unknown_name_raises_keyerror (cfg : Config) (name : String) (ts now : ℚ)
    (states : StateMap) (h : ∀ p ∈ states, p.1 ≠ name) :
    monitorStep cfg (some (name, ts)) now states
      = Except.error (PyError.keyError name) := by
  have hany : states.any (fun p => p.1 == name) = false := by
    simp only [List.any_eq_false]
    intro p hp
    simpa using h p hp
  simp [monitorStep, reportPhase, hany]

/-- Witness for the amended C2 at a concrete tracked set and message. -/
theorem unknown_name_raises_keyerror_witness :
    monitorStep ⟨3, 10⟩ (some ("intruder", 7)) 8
        [("w1", ⟨"w1", some 0, 0⟩), ("w2", ⟨"w2", some 0, 1⟩)]
      = Except.error (PyError.keyError "intruder") :=
  unknown_name_raises_keyerror ⟨3, 10⟩ "intruder" 7 8
    [("w1", ⟨"w1", some 0, 0⟩), ("w2", ⟨"w2", some 0, 1⟩)] (by decide)

/-- Counterexample for C3: in the escalation handler the publish is NOT
followed by the reset — the recorded action order of a concrete
escalating check is reset first, publish second. -/
theorem publish_before_reset_cex :
    (handleState ⟨3, 10⟩ 31 ⟨"w", some 0, 2⟩).1.2
        = [Event.resetEv "w", Event.publish "w"]
    ∧ (handleState ⟨3, 10⟩ 31 ⟨"w", some 0, 2⟩).1.2
        ≠ [Event.publish "w", Event.resetEv "w"] := by
  have h : handleState ⟨3, 10⟩ 31 ⟨"w", some 0, 2⟩
      = ((⟨"w", some 31, 0⟩, [Event.resetEv "w", Event.publish "w"]), none) := by
    rw [handleState_eq, checkE_eq]
    norm_num [HealthState.reset]
  rw [h]
  exact ⟨rfl, by simp⟩

/-- Claim C3 (amended): for every staleness episode (a check that
escalates `Stale`), the publish is invoked exactly once, and it is
immediately **preceded** by the state reset (reset first, publish
second) that sets `misses = 0` and re-bases `last` to the detection
time. -/
theorem escalation_resets_then_publishes (cfg : Config) (now : ℚ) (s : HealthState)
    (h : (s.checkE cfg now).2 = some PyError.staleError) :
    handleState cfg now s
      = ((⟨s.name, some now, 0⟩,
          [Event.resetEv s.name, Event.publish s.name]), none) := by
  rw [handleState_eq, if_pos h]
  simp only [HealthState.reset]
  rw [checkE_name cfg now s]

/-- Witness for the amended C3 at a concrete escalating state. -/
theorem escalation_resets_then_publishes_witness :
    handleState ⟨3, 10⟩ 50 ⟨"v", some 5, 2⟩
      = ((⟨"v", some 50, 0⟩, [Event.resetEv "v", Event.publish "v"]), none) :=
  escalation_resets_then_publishes ⟨3, 10⟩ 50 ⟨"v", some 5, 2⟩
    (by rw [checkE_eq]; norm_num)

/-- Claim C4: the `Stale` signal raised by `missed`/`check` is always
caught and fully handled inside the monitor loop — the per-state handler
returns normally (no escaping exception), on an escalation it performs
the reset followed by the publish, and a whole loop iteration can never
abort with `Stale`, for every configuration, message and state map. -/
theorem stale_never_escapes (cfg : Config) (now : ℚ) (s : HealthState)
    (msg : Option (String × ℚ)) (states : StateMap) :
    (handleState cfg now s).2 = none
    ∧ ((s.checkE cfg now).2 = some PyError.staleError →
        (handleState cfg now s).1.2
          = [Event.resetEv s.name, Event.publish s.name])
    ∧ monitorStep cfg msg now states ≠ Except.error PyError.staleError := by
  refine ⟨handleState_snd cfg now s, ?_, ?_⟩
  · intro h
    rw [handleState_eq, if_pos h]
    simp [checkE_name cfg now s]
  · intro hcontra
    unfold monitorStep at hcontra
    rcases hrep : reportPhase msg states with e | s1 <;> rw [hrep] at hcontra <;>
      dsimp only at hcontra
    · obtain ⟨nm, ts, hmsg, he⟩ := reportPhase_error msg states e hrep
      subst he
      simp at hcontra
    · obtain ⟨out, hout⟩ := checkStates_ok cfg now s1
      rw [hout] at hcontra
      cases hcontra

/-- Witness for C4: on a concrete escalating state the handler returns
normally with the reset-then-publish actions. -/
theorem stale_never_escapes_witness :
    (handleState ⟨3, 10⟩ 100 ⟨"u", some 0, 2⟩).1.2
      = [Event.resetEv "u", Event.publish "u"] :=
  (stale_never_escapes ⟨3, 10⟩ 100 ⟨"u", some 0, 2⟩ none []).2.1
    (by rw [checkE_eq]; norm_num)

/-- The implicit bounded-misses invariant of the monitor loop. -/
def MissesInv (maxM : ℕ) (states : StateMap) : Prop :=
  ∀ p ∈ states, p.2.misses < maxM

/-- The report phase keeps every tracked miss count strictly below the
limit (a successful report zeroes it). -/
lemma reportPhase_inv (maxM : ℕ) (msg : Option (String × ℚ)) (states s1 : StateMap)
    (h1 : 1 ≤ maxM) (hinv : MissesInv maxM states)
    (hok : reportPhase msg states = Except.ok s1) : MissesInv maxM s1 := by
  match msg with
  | none =>
    rw [reportPhase] at hok
    cases hok
    exact hinv
  | some (nm, ts) =>
    rw [reportPhase] at hok
    split at hok
    · cases hok
      intro p hp
      simp only [List.mem_map] at hp
      obtain ⟨q, hq, hpq⟩ := hp
      subst hpq
      by_cases hqn : q.1 = nm
      · simp only [hqn, if_true, HealthState.report]
        omega
      · simp only [hqn, if_false]
        exact hinv q hq
    · cases hok

/-- The check phase keeps every tracked miss count strictly below the
limit: a non-escalating miss stays below it, an escalating one is
immediately reset to 0. -/
lemma checkStates_inv (cfg : Config) (now : ℚ) (h1 : 1 ≤ cfg.maxMisses) :
    ∀ (l : StateMap) (out : StateMap × List Event),
      MissesInv cfg.maxMisses l → checkStates cfg now l = Except.ok out →
      MissesInv cfg.maxMisses out.1 := by
  intro l
  induction l with
  | nil =>
    intro out hinv hok
    cases hok
    intro p hp
    simp at hp
  | cons hd rest ih =>
    intro out hinv hok
    obtain ⟨n, s⟩ := hd
    have h2 := handleState_snd cfg now s
    have hm := handleState_misses_lt cfg now s h1 (hinv (n, s) (List.mem_cons_self _ _))
    rcases hh : handleState cfg now s with ⟨⟨s1, ev⟩, e⟩
    rw [hh] at h2 hm
    simp only at h2 hm
    subst h2
    rw [checkStates, hh] at hok
    obtain ⟨routp, hr⟩ := checkStates_ok cfg now rest
    obtain ⟨rest1, evs⟩ := routp
    rw [hr] at hok
    cases hok
    intro q hq
    rcases List.mem_cons.mp hq with hq | hq
    · subst hq
      exact hm
    · exact ih (rest1, evs) (fun p hp => hinv p (List.mem_cons_of_mem _ hp)) hr q hq

/-- Claim C10: bounded-misses invariant. Assuming `maxMisses ≥ 1`, the
initial state map has every miss count 0 (hence below the limit), and
one full loop iteration that completes normally preserves
`misses < maxMisses` for every tracked state: a report zeroes the count,
a non-escalating check increments it only to a value still below the
limit, and a check that reaches the limit is immediately reset. -/
theorem monitor_misses_invariant (cfg : Config) (h1 : 1 ≤ cfg.maxMisses) :
    (∀ (processNames : List String) (now : ℚ),
        MissesInv cfg.maxMisses (initStates processNames now))
    ∧ (∀ (msg : Option (String × ℚ)) (now : ℚ) (states : StateMap)
          (out : StateMap × List Event),
        MissesInv cfg.maxMisses states →
        monitorStep cfg msg now states = Except.ok out →
        MissesInv cfg.maxMisses out.1) := by
  constructor
  · intro names now p hp
    simp only [initStates, List.mem_map] at hp
    obtain ⟨n, hn, rfl⟩ := hp
    simpa using h1
  · intro msg now states out hinv hok
    unfold monitorStep at hok
    rcases hrep : reportPhase msg states with e | s1 <;> rw [hrep] at hok <;>
      dsimp only at hok
    · cases hok
    · exact checkStates_inv cfg now h1 s1 out
        (reportPhase_inv cfg.maxMisses msg states s1 h1 hinv hrep) hok

/-- Witness for C10 at the default configuration: the invariant holds
for a concrete initial map, and is preserved across a concrete
successfully completed iteration. -/
theorem monitor_misses_invariant_witness :
    MissesInv 3 (initStates ["w1", "w2"] 0) ∧ MissesInv 3 ([] : StateMap) :=
  ⟨(monitor_misses_invariant ⟨3, 10⟩ (by decide)).1 ["w1", "w2"] 0,
   (monitor_misses_invariant ⟨3, 10⟩ (by decide)).2 none 0 [] ([], [])
     (by simp [MissesInv]) rfl⟩
